import Mathlib

/-!
Verification development for the `mattmireles/zaai` fixture repository.

The definitions below are a shallow embedding of the two Python source files:

* `src/domains/test/environment_test/source_py.py` — the `User` dataclass, the
  `InMemoryUserRepository` (a guarded in-memory mapping with a capacity bound
  and a monotone next-identifier counter), the `UserService` creation and
  statistics paths.
* `src/domains/core/foobar.py` — the `Foo`/`Bar`/`Baz` sample trio.

Python dictionaries are embedded as association lists preserving insertion
order (updating an existing key keeps its position, a new key is appended),
which matches CPython dict semantics.  Python `int` becomes `Int` (or `Nat`
for identifiers, which the code only ever creates as positive), Python
`float` timestamps and averages become `Rat`, exceptions become explicit
result constructors carrying the structured `error_code` strings from the
source.
-/

namespace SourcePy

/-- Embeds the `UserStatus` enum of `source_py.py`. -/
inductive UserStatus
  | ACTIVE
  | INACTIVE
  | PENDING
  | SUSPENDED
deriving DecidableEq

/-- Embeds `UserStatus.name` as used by the statistics code (`user.status.name`). -/
def UserStatus.name : UserStatus → String
  | .ACTIVE => "ACTIVE"
  | .INACTIVE => "INACTIVE"
  | .PENDING => "PENDING"
  | .SUSPENDED => "SUSPENDED"

/-- Embeds the `UserPreferences` named tuple. -/
structure UserPreferences where
  theme : String
  notifications : Bool
  language : String
  timezone : String
deriving DecidableEq

/-- The default preferences built by the `User` dataclass field factory. -/
def defaultPreferences : UserPreferences :=
  { theme := "light", notifications := true, language := "en", timezone := "UTC" }

/-- Embeds the `User` dataclass fields.  `metadata` (`Dict[str, Any]`) is
embedded as a string-keyed association list; nothing in the code constrains
or inspects it. -/
structure User where
  id : Nat
  name : String
  email : String
  age : Option Int
  status : UserStatus
  preferences : UserPreferences
  created_at : Rat
  metadata : List (String × String)
deriving DecidableEq

/-- Embeds `User._is_valid_email`:
`'@' in email and '.' in email and len(email) > 5`.  Membership of a
single-character substring is character membership, and `len` counts code
points, so both are read off `String.data`. -/
def is_valid_email (email : String) : Bool :=
  email.data.contains '@' && email.data.contains '.' && decide (email.length > 5)

/-- Embeds Python `str.lower()` restricted to its ASCII action (the emails in
this code base are ASCII): lowercase every character. -/
def strLower (s : String) : String := String.mk (s.data.map Char.toLower)

/-- Embeds `User(...)` construction including the `__post_init__` validation:
an invalid email, or `age is not None and age < 0`, raises `ValueError`. -/
def mkUser (id : Nat) (name email : String) (age : Option Int) (status : UserStatus)
    (preferences : UserPreferences) (created_at : Rat) (metadata : List (String × String)) :
    Except String User :=
  if ¬ is_valid_email email then
    .error "Invalid email format"
  else if age.any (fun a => decide (a < 0)) then
    .error "Age cannot be negative"
  else
    .ok { id, name, email, age, status, preferences, created_at, metadata }

/-- Embeds `User.is_adult`: `self.age is not None and self.age >= 18`. -/
def User.is_adult (u : User) : Bool :=
  match u.age with
  | some a => decide (18 ≤ a)
  | none => false

/-- The re-validation performed inside `InMemoryUserRepository.save` by
`User(**user.to_dict())`: it re-runs `__post_init__`, i.e. the email and age
checks (the status/preferences round trip is not type-checked by the
dataclass and cannot fail). -/
def validUser (u : User) : Bool :=
  is_valid_email u.email &&
    (match u.age with
     | some a => decide (0 ≤ a)
     | none => true)

/-- Embeds the mutable state of `InMemoryUserRepository`:
`_users` (an insertion-ordered mapping), `_next_id`, `_max_users`,
`_created_at`. -/
structure RepoState where
  users : List (Nat × User)
  next_id : Nat
  max_users : Nat
  created_at : Rat
deriving DecidableEq

/-- `SystemConstants.MAX_USERS_IN_MEMORY`. -/
def MAX_USERS_IN_MEMORY : Nat := 1000

/-- Embeds `InMemoryUserRepository.__init__`. -/
def mkRepo (max_users : Nat) (now : Rat) : RepoState :=
  { users := [], next_id := 1, max_users := max_users, created_at := now }

/-- Python dict read `self._users.get(k)` / membership `k in self._users`. -/
def lookupUser (users : List (Nat × User)) (k : Nat) : Option User :=
  (users.find? (fun p => p.1 == k)).map (fun p => p.2)

/-- Python dict write `self._users[k] = u`: updating an existing key keeps
its position, a new key is appended at the end. -/
def insertUser (users : List (Nat × User)) (k : Nat) (u : User) : List (Nat × User) :=
  if users.any (fun p => p.1 == k) then
    users.map (fun p => if p.1 == k then (k, u) else p)
  else
    users ++ [(k, u)]

/-- Outcome of `InMemoryUserRepository.save`: the returned identifier, or the
raised `RepositoryError` / `ValidationError` with its `error_code`. -/
inductive SaveResult
  | ok (uid : Nat)
  | repositoryError (error_code : String)
  | validationError (error_code : String)
deriving DecidableEq

/-- Embeds `InMemoryUserRepository.save`.  The second component of the result
is the `user` argument after the method returns: Python mutates `user.id` in
place at the point a fresh identifier is assigned, which happens before the
re-validation step, so the mutated object (and the incremented counter) are
observable even when save raises a `ValidationError`.  The third component is
the repository state after the call. -/
def save (st : RepoState) (u : User) : SaveResult × User × RepoState :=
  if st.users.length ≥ st.max_users ∧ lookupUser st.users u.id = none then
    (.repositoryError "CAPACITY_EXCEEDED", u, st)
  else
    let uid := if u.id = 0 ∨ lookupUser st.users u.id = none then st.next_id else u.id
    let next' := if u.id = 0 ∨ lookupUser st.users u.id = none then st.next_id + 1 else st.next_id
    let u' : User := { u with id := uid }
    if validUser u' then
      (.ok uid, u', { st with users := insertUser st.users uid u', next_id := next' })
    else
      (.validationError "INVALID_USER_DATA", u', { st with next_id := next' })

/-- Embeds `InMemoryUserRepository.find_by_id`. -/
def find_by_id (st : RepoState) (user_id : Nat) : Option User :=
  lookupUser st.users user_id

/-- Embeds `InMemoryUserRepository.find_all`: `list(self._users.values())`. -/
def find_all (st : RepoState) : List User :=
  st.users.map (fun p => p.2)

/-- Embeds `InMemoryUserRepository.delete`. -/
def delete (st : RepoState) (user_id : Nat) : Bool × RepoState :=
  if (lookupUser st.users user_id).isSome then
    (true, { st with users := st.users.filter (fun p => p.1 != user_id) })
  else
    (false, st)

/-- One iteration of the shared statistics loop body
(`status_counts[user.status.name] += 1` on a `defaultdict`). -/
def bumpCount (counts : List (String × Nat)) (k : String) : List (String × Nat) :=
  if counts.any (fun p => p.1 == k) then
    counts.map (fun p => if p.1 == k then (p.1, p.2 + 1) else p)
  else
    counts ++ [(k, 1)]

/-- The loop body shared verbatim by `InMemoryUserRepository.get_statistics`
and `UserService._calculate_basic_statistics`: accumulates
`(status_counts, adult_count, total_age, age_count)`. -/
def statsStep (acc : List (String × Nat) × Nat × Int × Nat) (u : User) :
    List (String × Nat) × Nat × Int × Nat :=
  (bumpCount acc.1 u.status.name,
   (if u.is_adult then acc.2.1 + 1 else acc.2.1),
   (match u.age with | some a => acc.2.2.1 + a | none => acc.2.2.1),
   (match u.age with | some _ => acc.2.2.2 + 1 | none => acc.2.2.2))

/-- The full statistics loop over a user list, starting from the zeroed
accumulators, exactly as both Python statistics functions run it. -/
def statsLoop (users : List User) : List (String × Nat) × Nat × Int × Nat :=
  users.foldl statsStep ([], 0, 0, 0)

/-- The five statistics fields computed by both
`InMemoryUserRepository.get_statistics` and
`UserService._calculate_basic_statistics`. -/
structure BasicStats where
  total_users : Nat
  status_distribution : List (String × Nat)
  adult_users : Nat
  minor_users : Nat
  average_age : Rat
deriving DecidableEq

/-- The full dictionary returned by `InMemoryUserRepository.get_statistics`. -/
structure RepoStats extends BasicStats where
  repository_capacity : Nat
  capacity_utilization : Rat
  repository_age_seconds : Rat
  next_available_id : Nat
deriving DecidableEq

/-- Embeds `InMemoryUserRepository.get_statistics`; `now` stands for the
`time.time()` call used for `repository_age_seconds`. -/
def get_statistics (st : RepoState) (now : Rat) : RepoStats :=
  let users := find_all st
  let r := statsLoop users
  { total_users := users.length
    status_distribution := r.1
    adult_users := r.2.1
    minor_users := users.length - r.2.1
    average_age := if r.2.2.2 > 0 then (r.2.2.1 : Rat) / (r.2.2.2 : Rat) else 0
    repository_capacity := st.max_users
    capacity_utilization := (st.users.length : Rat) / (st.max_users : Rat)
    repository_age_seconds := now - st.created_at
    next_available_id := st.next_id }

/-- Embeds `UserService._calculate_basic_statistics`, including the early
return on an empty user list. -/
def calculate_basic_statistics (users : List User) : BasicStats :=
  if users.isEmpty then
    { total_users := 0
      status_distribution := []
      adult_users := 0
      minor_users := 0
      average_age := 0 }
  else
    let r := statsLoop users
    { total_users := users.length
      status_distribution := r.1
      adult_users := r.2.1
      minor_users := users.length - r.2.1
      average_age := if r.2.2.2 > 0 then (r.2.2.1 : Rat) / (r.2.2.2 : Rat) else 0 }

/-- The dictionary returned by `UserService.get_user_statistics`: the basic
fields, the extra repository fields when the repository exposes
`get_statistics` (capacity, utilization, age, next id), and the
`service_uptime_seconds` key the service always adds. -/
structure ServiceStats where
  base : BasicStats
  repo_details : Option (Nat × Rat × Rat × Nat)
  service_uptime_seconds : Rat
deriving DecidableEq

/-- Embeds `UserService.get_user_statistics`.  `has_get_statistics` models the
`hasattr(self._repository, 'get_statistics')` test (always true for
`InMemoryUserRepository`; false for basic repositories, which take the
`_calculate_basic_statistics` fallback).  `now` and `service_started` stand
for `time.time()` and `self._service_started`. -/
def get_user_statistics (st : RepoState) (now service_started : Rat)
    (has_get_statistics : Bool) : ServiceStats :=
  if has_get_statistics then
    let s := get_statistics st now
    { base := s.toBasicStats
      repo_details := some (s.repository_capacity, s.capacity_utilization,
                            s.repository_age_seconds, s.next_available_id)
      service_uptime_seconds := now - service_started }
  else
    { base := calculate_basic_statistics (find_all st)
      repo_details := none
      service_uptime_seconds := now - service_started }

/-- Outcome of `UserService.create_user_async`: the created user, the
`DUPLICATE_EMAIL` validation error with the conflicting stored identifier
from its context, the `ValueError` escaping `User(...)` construction, or a
re-raised error from `save`. -/
inductive CreateOutcome
  | created (u : User)
  | validationError (error_code : String) (existing_user_id : Nat)
  | valueError (msg : String)
  | saveFailed (r : SaveResult)
deriving DecidableEq

/-- Embeds `UserService.create_user_async` (the `asyncio.sleep` delay has no
state effect and is dropped).  The duplicate scan walks `find_all()` in order
and raises on the first user whose lowercased email matches; otherwise the
service builds a `User` with `id=0` and status `ACTIVE` and delegates to
`save`, re-raising any failure.  `now` stands for `time.time()` used as the
new user's `created_at`. -/
def create_user_async (st : RepoState) (name email : String) (age : Option Int)
    (now : Rat) : CreateOutcome × RepoState :=
  match (find_all st).find? (fun ex => strLower ex.email == strLower email) with
  | some ex => (.validationError "DUPLICATE_EMAIL" ex.id, st)
  | none =>
    match mkUser 0 name email age .ACTIVE defaultPreferences now [] with
    | .error m => (.valueError m, st)
    | .ok u =>
      match save st u with
      | (.ok uid, u', st') => (.created { u' with id := uid }, st')
      | (r, _, st') => (.saveFailed r, st')

/-- Well-formedness of a repository state, true of the initial state and
preserved by every operation: stored keys are distinct, positive and below
the counter; the counter is at least 1; the store is within capacity. -/
def Wf (st : RepoState) : Prop :=
  (st.users.map (fun p => p.1)).Nodup ∧
  (∀ p ∈ st.users, 0 < p.1 ∧ p.1 < st.next_id) ∧
  1 ≤ st.next_id ∧
  st.users.length ≤ st.max_users

instance (st : RepoState) : Decidable (Wf st) := by
  unfold Wf; infer_instance

/-!
Reference-level model of `find_all` / `find_by_id`, capturing Python object
aliasing.  In CPython the repository dictionary stores references to mutable
`User` objects; `find_all` returns `list(self._users.values())` — a fresh
list holding the same references — and `find_by_id` returns the stored
reference itself.  Here a heap maps object addresses to `User` records, the
store maps identifiers to addresses, and in-place mutation of a `User`
object (e.g. assigning its `name` attribute) is a heap write at its
address. -/

/-- The object heap: address to `User` object contents. -/
structure ObjHeap where
  objs : List (Nat × User)
deriving DecidableEq

/-- Dereference an address. -/
def ObjHeap.read (h : ObjHeap) (addr : Nat) : Option User :=
  (h.objs.find? (fun p => p.1 == addr)).map (fun p => p.2)

/-- In-place mutation `obj.name = n` of the object at `addr`. -/
def ObjHeap.writeName (h : ObjHeap) (addr : Nat) (n : String) : ObjHeap :=
  ⟨h.objs.map (fun p => if p.1 == addr then (p.1, { p.2 with name := n }) else p)⟩

/-- Repository state at the reference level: `_users` maps identifiers to
object references (addresses into the heap). -/
structure RefRepoState where
  heap : ObjHeap
  store : List (Nat × Nat)
deriving DecidableEq

/-- `find_all` at the reference level: `list(self._users.values())` builds a
new list whose elements are the stored references themselves. -/
def ref_find_all (st : RefRepoState) : List Nat :=
  st.store.map (fun p => p.2)

/-- `find_by_id` at the reference level: returns the stored reference. -/
def ref_find_by_id (st : RefRepoState) (user_id : Nat) : Option Nat :=
  (st.store.find? (fun p => p.1 == user_id)).map (fun p => p.2)

/-- The `User` value a caller observes from `find_by_id`: the dereferenced
stored object. -/
def observe_by_id (st : RefRepoState) (user_id : Nat) : Option User :=
  (ref_find_by_id st user_id).bind (fun addr => st.heap.read addr)

/-!  Concrete fixtures used by witnesses. -/

/-- A valid stored user. -/
def testUser1 : User :=
  { id := 1, name := "Alice", email := "alice@example.com", age := some 28,
    status := .ACTIVE, preferences := defaultPreferences, created_at := 0, metadata := [] }

/-- A valid not-yet-saved user (identifier 0). -/
def testUserNew : User :=
  { id := 0, name := "Bob", email := "bob@example.com", age := some 20,
    status := .ACTIVE, preferences := defaultPreferences, created_at := 0, metadata := [] }

/-- A user whose email fails validation (as a Python object this state is
reachable by assigning the `email` attribute after construction). -/
def testUserBad : User :=
  { id := 0, name := "Eve", email := "bad", age := some 20,
    status := .ACTIVE, preferences := defaultPreferences, created_at := 0, metadata := [] }

/-- A repository at capacity 1 holding `testUser1`. -/
def testRepoFull : RepoState :=
  { users := [(1, testUser1)], next_id := 2, max_users := 1, created_at := 0 }

/-- An empty repository with plenty of capacity. -/
def testRepoEmpty : RepoState :=
  { users := [], next_id := 1, max_users := 1000, created_at := 0 }

/-- Scenario start state for the duplicate-email scenario. -/
def scenarioSt0 : RepoState := mkRepo 1000 0

/-- First scenario step: create a user with email `a@b.com`. -/
def scenarioStep1 : CreateOutcome × RepoState :=
  create_user_async scenarioSt0 "Alice" "a@b.com" (some 30) 0

/-- Second scenario step: create a user with email `A@B.COM` against the
state left by the first step. -/
def scenarioStep2 : CreateOutcome × RepoState :=
  create_user_async scenarioStep1.2 "Bob" "A@B.COM" (some 25) 0

/-- The user the first scenario step creates. -/
def scenarioUser1 : User :=
  { id := 1, name := "Alice", email := "a@b.com", age := some 30,
    status := .ACTIVE, preferences := defaultPreferences, created_at := 0, metadata := [] }

/-- Reference-level fixture: one user stored at identifier 1, whose object
lives at address 7. -/
def refFixture : RefRepoState :=
  { heap := ⟨[(7, testUser1)]⟩, store := [(1, 7)] }

end SourcePy

namespace Foobar

/-- Embeds `ProcessingConstants` of `foobar.py`. -/
def FOO_ACTION_RESULT : String := "Foo did something successfully"

/-- Embeds `ProcessingConstants.BAR_ACTION_RESULT`. -/
def BAR_ACTION_RESULT : String := "Bar performed its action"

/-- Embeds `ProcessingConstants.BAZ_ACTION_RESULT`. -/
def BAZ_ACTION_RESULT : String := "Baz executed its method"

/-- The `Foo` class: its constructor takes nothing and stores nothing. -/
inductive Foo
  | mk

/-- The `Bar` class. -/
inductive Bar
  | mk

/-- The `Baz` class. -/
inductive Baz
  | mk

/-- Embeds `Foo.do_something`. -/
def Foo.do_something (_ : Foo) : String := FOO_ACTION_RESULT

/-- Embeds `Bar.do_something`. -/
def Bar.do_something (_ : Bar) : String := BAR_ACTION_RESULT

/-- Embeds `Baz.do_something`. -/
def Baz.do_something (_ : Baz) : String := BAZ_ACTION_RESULT

end Foobar

/-!  Helper lemmas about the embedded dictionary operations. -/

namespace SourcePy

theorem validUser_set_id (u : User) (x : Nat) : validUser { u with id := x } = validUser u := rfl

theorem lookupUser_eq_none_iff {users : List (Nat × User)} {k : Nat} :
    lookupUser users k = none ↔ ∀ p ∈ users, (p.1 == k) = false := by
  simp [lookupUser, List.find?_eq_none]

theorem lookupUser_some_mem {users : List (Nat × User)} {k : Nat} {v : User}
    (h : lookupUser users k = some v) : (k, v) ∈ users := by
  unfold lookupUser at h
  cases hf : users.find? (fun p => p.1 == k) with
  | none => rw [hf] at h; simp at h
  | some p =>
    rw [hf] at h
    simp at h
    have hm := List.mem_of_find?_eq_some hf
    have hp := List.find?_some hf
    simp at hp
    cases p with
    | mk a b =>
      simp at hp h
      have hkv : ((k, v) : Nat × User) = (a, b) := by rw [hp, h]
      rw [hkv]
      exact hm

theorem any_eq_true_of_lookupUser_some {users : List (Nat × User)} {k : Nat} {v : User}
    (h : lookupUser users k = some v) : users.any (fun p => p.1 == k) = true := by
  have hm := lookupUser_some_mem h
  rw [List.any_eq_true]
  exact ⟨(k, v), hm, by simp⟩

theorem lookupUser_eq_none_of_any_eq_false {users : List (Nat × User)} {k : Nat}
    (h : users.any (fun p => p.1 == k) = false) : lookupUser users k = none := by
  rw [lookupUser_eq_none_iff]
  intro p hp
  rw [List.any_eq_false] at h
  simpa using h p hp

theorem insertUser_of_any_eq_false {users : List (Nat × User)} {k : Nat} (u : User)
    (h : users.any (fun p => p.1 == k) = false) :
    insertUser users k u = users ++ [(k, u)] := by
  unfold insertUser
  rw [h]
  simp

theorem length_insertUser_of_any_eq_true {users : List (Nat × User)} {k : Nat} (u : User)
    (h : users.any (fun p => p.1 == k) = true) :
    (insertUser users k u).length = users.length := by
  unfold insertUser
  rw [h]
  simp

theorem keys_insertUser_of_any_eq_true {users : List (Nat × User)} {k : Nat} (u : User)
    (h : users.any (fun p => p.1 == k) = true) :
    (insertUser users k u).map (fun p => p.1) = users.map (fun p => p.1) := by
  unfold insertUser
  rw [h]
  simp only [if_true]
  rw [List.map_map]
  refine List.map_congr_left ?_
  intro p _
  by_cases hp : (p.1 == k) = true
  · have hk : p.1 = k := by simpa using hp
    simp [Function.comp, hp, hk]
  · simp [Function.comp, hp]

theorem mem_insertUser {users : List (Nat × User)} {k : Nat} {u : User} {q : Nat × User}
    (hq : q ∈ insertUser users k u) : q = (k, u) ∨ q ∈ users := by
  unfold insertUser at hq
  by_cases h : users.any (fun p => p.1 == k) = true
  · rw [h] at hq
    simp only [if_true] at hq
    obtain ⟨p, hp, hpe⟩ := List.mem_map.mp hq
    by_cases hpk : (p.1 == k) = true
    · left; rw [← hpe]; simp [hpk]
    · right; rw [← hpe]; simp [hpk]; exact hp
  · rw [Bool.not_eq_true] at h
    rw [h] at hq
    simp only [Bool.false_eq_true, if_false] at hq
    rcases List.mem_append.mp hq with h1 | h1
    · right; exact h1
    · left; simpa using h1

theorem insertUser_cons_of_ne {p : Nat × User} {l : List (Nat × User)} {k : Nat} (u : User)
    (hp : (p.1 == k) = false) :
    insertUser (p :: l) k u = p :: insertUser l k u := by
  have hp' : ¬ p.1 = k := by simpa using hp
  by_cases ha : l.any (fun q => q.1 == k) = true
  · simp [insertUser, List.any_cons, hp, ha, hp']
  · rw [Bool.not_eq_true] at ha
    simp [insertUser, List.any_cons, hp, ha, hp']

theorem lookupUser_insertUser_self (users : List (Nat × User)) (k : Nat) (u : User) :
    lookupUser (insertUser users k u) k = some u := by
  induction users with
  | nil => simp [insertUser, lookupUser]
  | cons p l ih =>
    by_cases hp : (p.1 == k) = true
    · have hany : (p :: l).any (fun q => q.1 == k) = true := by
        rw [List.any_cons, hp, Bool.true_or]
      unfold insertUser
      rw [hany]
      simp only [if_true, List.map_cons, hp]
      unfold lookupUser
      simp
    · rw [Bool.not_eq_true] at hp
      rw [insertUser_cons_of_ne u hp]
      unfold lookupUser
      rw [List.find?_cons_of_neg _ (by simp [hp])]
      exact ih

theorem lookupUser_filter_self (users : List (Nat × User)) (k : Nat) :
    lookupUser (users.filter (fun p => p.1 != k)) k = none := by
  rw [lookupUser_eq_none_iff]
  intro p hp
  have := List.of_mem_filter hp
  simpa using this

end SourcePy

namespace SourcePy

theorem set_id_self (u : User) : { u with id := u.id } = u := rfl

theorem save_eq_capacity {st : RepoState} {u : User}
    (h : st.users.length ≥ st.max_users ∧ lookupUser st.users u.id = none) :
    save st u = (.repositoryError "CAPACITY_EXCEEDED", u, st) := by
  unfold save
  rw [if_pos h]

theorem save_eq_fresh {st : RepoState} {u : User}
    (hcap : ¬ (st.users.length ≥ st.max_users ∧ lookupUser st.users u.id = none))
    (hfresh : u.id = 0 ∨ lookupUser st.users u.id = none) :
    save st u =
      (if validUser u then
        (.ok st.next_id, { u with id := st.next_id },
         { st with users := insertUser st.users st.next_id { u with id := st.next_id },
                   next_id := st.next_id + 1 })
       else
        (.validationError "INVALID_USER_DATA", { u with id := st.next_id },
         { st with next_id := st.next_id + 1 })) := by
  unfold save
  rw [if_neg hcap]
  simp only [if_pos hfresh, validUser_set_id]

theorem save_eq_present {st : RepoState} {u : User}
    (hnf : ¬ (u.id = 0 ∨ lookupUser st.users u.id = none)) :
    save st u =
      (if validUser u then
        (.ok u.id, u, { st with users := insertUser st.users u.id u, next_id := st.next_id })
       else
        (.validationError "INVALID_USER_DATA", u, st)) := by
  have hsome : lookupUser st.users u.id ≠ none := fun h => hnf (Or.inr h)
  unfold save
  rw [if_neg (fun hc => hsome hc.2)]
  simp only [if_neg hnf, validUser_set_id, set_id_self]

theorem lookupUser_eq_none_of_id_zero {st : RepoState} {u : User} (hwf : Wf st)
    (h0 : u.id = 0) : lookupUser st.users u.id = none := by
  cases hl : lookupUser st.users u.id with
  | none => rfl
  | some v =>
    have hm := lookupUser_some_mem hl
    have := (hwf.2.1 _ hm).1
    omega

theorem next_id_save_mono (st : RepoState) (u : User) :
    st.next_id ≤ ((save st u).2.2).next_id := by
  by_cases hcap : st.users.length ≥ st.max_users ∧ lookupUser st.users u.id = none
  · rw [save_eq_capacity hcap]
  · by_cases hfresh : u.id = 0 ∨ lookupUser st.users u.id = none
    · rw [save_eq_fresh hcap hfresh]
      by_cases hval : validUser u = true
      · rw [if_pos hval]
        exact Nat.le_succ _
      · rw [if_neg hval]
        exact Nat.le_succ _
    · rw [save_eq_present hfresh]
      by_cases hval : validUser u = true
      · rw [if_pos hval]
      · rw [if_neg hval]

theorem Wf_delete (st : RepoState) (k : Nat) (hwf : Wf st) : Wf ((delete st k).2) := by
  obtain ⟨hnd, hbound, hone, hlen⟩ := hwf
  unfold delete
  by_cases h : (lookupUser st.users k).isSome = true
  · rw [if_pos h]
    refine ⟨?_, ?_, hone, ?_⟩
    · exact ((List.filter_sublist _).map _).nodup hnd
    · intro p hp
      exact hbound p (List.mem_of_mem_filter hp)
    · exact le_trans (List.length_filter_le _ _) hlen
  · rw [if_neg h]
    exact ⟨hnd, hbound, hone, hlen⟩

theorem Wf_save (st : RepoState) (u : User) (hwf : Wf st) : Wf ((save st u).2.2) := by
  obtain ⟨hnd, hbound, hone, hlen⟩ := hwf
  by_cases hcap : st.users.length ≥ st.max_users ∧ lookupUser st.users u.id = none
  · rw [save_eq_capacity hcap]
    exact ⟨hnd, hbound, hone, hlen⟩
  · by_cases hfresh : u.id = 0 ∨ lookupUser st.users u.id = none
    · have hnone : lookupUser st.users u.id = none := by
        rcases hfresh with h0 | hn
        · exact lookupUser_eq_none_of_id_zero ⟨hnd, hbound, hone, hlen⟩ h0
        · exact hn
      have hlt : st.users.length < st.max_users := by
        by_contra hge
        exact hcap ⟨by omega, hnone⟩
      have hanyf : st.users.any (fun p => p.1 == st.next_id) = false := by
        rw [List.any_eq_false]
        intro p hp
        have := (hbound p hp).2
        simp
        omega
      rw [save_eq_fresh hcap hfresh]
      by_cases hval : validUser u = true
      · rw [if_pos hval]
        refine ⟨?_, ?_, Nat.le_succ_of_le hone, ?_⟩
        · rw [insertUser_of_any_eq_false _ hanyf, List.map_append]
          refine List.Nodup.append hnd (by simp) ?_
          intro a ha
          simp only [List.map_cons, List.map_nil, List.mem_singleton]
          obtain ⟨p, hp, hpe⟩ := List.mem_map.mp ha
          have := (hbound p hp).2
          omega
        · intro q hq
          rw [insertUser_of_any_eq_false _ hanyf] at hq
          rcases List.mem_append.mp hq with hq' | hq'
          · have := hbound q hq'
            exact ⟨this.1, Nat.lt_succ_of_lt this.2⟩
          · have : q = (st.next_id, { u with id := st.next_id }) := by simpa using hq'
            rw [this]
            exact ⟨hone, Nat.lt_succ_self _⟩
        · rw [insertUser_of_any_eq_false _ hanyf, List.length_append]
          simpa using hlt
      · rw [if_neg hval]
        refine ⟨hnd, ?_, Nat.le_succ_of_le hone, hlen⟩
        intro p hp
        have := hbound p hp
        exact ⟨this.1, Nat.lt_succ_of_lt this.2⟩
    · have hsome : lookupUser st.users u.id ≠ none := fun h => hfresh (Or.inr h)
      obtain ⟨v, hv⟩ : ∃ v, lookupUser st.users u.id = some v := by
        cases hl : lookupUser st.users u.id with
        | none => exact absurd hl hsome
        | some v => exact ⟨v, rfl⟩
      have hany : st.users.any (fun p => p.1 == u.id) = true := any_eq_true_of_lookupUser_some hv
      rw [save_eq_present hfresh]
      by_cases hval : validUser u = true
      · rw [if_pos hval]
        refine ⟨?_, ?_, hone, ?_⟩
        · rw [keys_insertUser_of_any_eq_true _ hany]
          exact hnd
        · intro q hq
          rcases mem_insertUser hq with hq' | hq'
          · have hm := lookupUser_some_mem hv
            have := hbound _ hm
            rw [hq']
            exact ⟨this.1, this.2⟩
          · exact hbound q hq'
        · rw [length_insertUser_of_any_eq_true _ hany]
          exact hlen
      · rw [if_neg hval]
        exact ⟨hnd, hbound, hone, hlen⟩

theorem foldl_statsStep_spec (l : List User) :
    ∀ acc : List (String × Nat) × Nat × Int × Nat,
      (l.foldl statsStep acc).2.1 = acc.2.1 + l.countP (fun u => u.is_adult) ∧
      (l.foldl statsStep acc).2.2.1 = acc.2.2.1 + (l.filterMap (fun u => u.age)).sum ∧
      (l.foldl statsStep acc).2.2.2 = acc.2.2.2 + l.countP (fun u => u.age.isSome) := by
  induction l with
  | nil => intro acc; simp
  | cons u t ih =>
    intro acc
    rw [List.foldl_cons]
    obtain ⟨h1, h2, h3⟩ := ih (statsStep acc u)
    refine ⟨?_, ?_, ?_⟩
    · rw [h1, List.countP_cons]
      unfold statsStep
      by_cases ha : u.is_adult = true
      · simp [ha]
        omega
      · rw [Bool.not_eq_true] at ha
        simp [ha]
    · rw [h2]
      unfold statsStep
      cases hage : u.age with
      | some a =>
        simp [hage, List.filterMap_cons]
        omega
      | none => simp [hage, List.filterMap_cons]
    · rw [h3, List.countP_cons]
      unfold statsStep
      cases hage : u.age with
      | some a =>
        simp [hage]
        omega
      | none => simp [hage]

theorem statsLoop_adult (l : List User) :
    (statsLoop l).2.1 = l.countP (fun u => u.is_adult) := by
  have h := (foldl_statsStep_spec l ([], 0, 0, 0)).1
  simpa [statsLoop] using h

theorem statsLoop_total_age (l : List User) :
    (statsLoop l).2.2.1 = (l.filterMap (fun u => u.age)).sum := by
  have h := (foldl_statsStep_spec l ([], 0, 0, 0)).2.1
  simpa [statsLoop] using h

theorem statsLoop_age_count (l : List User) :
    (statsLoop l).2.2.2 = l.countP (fun u => u.age.isSome) := by
  have h := (foldl_statsStep_spec l ([], 0, 0, 0)).2.2
  simpa [statsLoop] using h

theorem get_statistics_toBasic (st : RepoState) (now : Rat) :
    (get_statistics st now).toBasicStats = calculate_basic_statistics (find_all st) := by
  by_cases h : (find_all st).isEmpty = true
  · have hnil : find_all st = [] := by simpa using h
    simp [get_statistics, calculate_basic_statistics, hnil, statsLoop]
  · simp [get_statistics, calculate_basic_statistics, h]

end SourcePy

namespace SourcePy

theorem delete_eq_of_none {st : RepoState} {k : Nat} (h : lookupUser st.users k = none) :
    delete st k = (false, st) := by
  unfold delete
  rw [if_neg (by rw [h]; simp)]

theorem mkUser_ok_iff (id : Nat) (name email : String) (age : Option Int)
    (status : UserStatus) (preferences : UserPreferences) (created_at : Rat)
    (metadata : List (String × String)) :
    (∃ u, mkUser id name email age status preferences created_at metadata = .ok u) ↔
      (is_valid_email email = true ∧ ∀ a, age = some a → 0 ≤ a) := by
  unfold mkUser
  by_cases he : is_valid_email email = true
  · rw [if_neg (by simp [he])]
    by_cases hn : age.any (fun a => decide (a < 0)) = true
    · rw [if_pos hn]
      constructor
      · rintro ⟨u, hu⟩
        simp at hu
      · rintro ⟨-, hall⟩
        cases age with
        | none => simp [Option.any] at hn
        | some a =>
          have := hall a rfl
          simp [Option.any] at hn
          omega
    · rw [if_neg hn]
      constructor
      · intro _
        refine ⟨he, ?_⟩
        intro a ha
        subst ha
        simp [Option.any] at hn
        omega
      · intro _
        exact ⟨_, rfl⟩
  · rw [if_pos (by simp [he])]
    constructor
    · rintro ⟨u, hu⟩
      simp at hu
    · rintro ⟨he', -⟩
      exact absurd he' he

theorem mkUser_error_iff (id : Nat) (name email : String) (age : Option Int)
    (status : UserStatus) (preferences : UserPreferences) (created_at : Rat)
    (metadata : List (String × String)) :
    (∃ m, mkUser id name email age status preferences created_at metadata = .error m) ↔
      ¬ (is_valid_email email = true ∧ ∀ a, age = some a → 0 ≤ a) := by
  rw [← mkUser_ok_iff id name email age status preferences created_at metadata]
  cases h : mkUser id name email age status preferences created_at metadata with
  | ok u => simp [h]
  | error m => simp [h]

end SourcePy

/-- Claim C2: for every name, email, optional age, status, preferences,
timestamp and metadata, `User` construction succeeds if and only if the email
contains the character `@` and the character `.` and has length strictly
greater than 5 and the age is absent or non-negative; in every other case
construction raises a `ValueError`. -/
theorem C2_user_construction (id : Nat) (name email : String) (age : Option Int)
    (status : SourcePy.UserStatus) (preferences : SourcePy.UserPreferences)
    (created_at : Rat) (metadata : List (String × String)) :
    ((∃ u, SourcePy.mkUser id name email age status preferences created_at metadata
        = .ok u) ↔
      (email.data.contains '@' = true ∧ email.data.contains '.' = true ∧
        5 < email.length ∧ ∀ a, age = some a → 0 ≤ a)) ∧
    ((∃ m, SourcePy.mkUser id name email age status preferences created_at metadata
        = .error m) ↔
      ¬ (email.data.contains '@' = true ∧ email.data.contains '.' = true ∧
        5 < email.length ∧ ∀ a, age = some a → 0 ≤ a)) := by
  have hval : SourcePy.is_valid_email email = true ↔
      (email.data.contains '@' = true ∧ email.data.contains '.' = true ∧
        5 < email.length) := by
    simp [SourcePy.is_valid_email, and_assoc]
  constructor
  · rw [SourcePy.mkUser_ok_iff, hval]
    tauto
  · rw [SourcePy.mkUser_error_iff, hval]
    tauto

/-- Claim C9: each sample class's `do_something` returns exactly its fixed
string: `Foo` reports success, `Bar` reports its action, `Baz` reports its
method. -/
theorem C9_foobarbaz_strings :
    Foobar.Foo.mk.do_something = "Foo did something successfully" ∧
    Foobar.Bar.mk.do_something = "Bar performed its action" ∧
    Foobar.Baz.mk.do_something = "Baz executed its method" :=
  ⟨rfl, rfl, rfl⟩

/-- Claim C10: when save raises a validation error after the fresh-identifier
branch ran (the user's identifier was 0 or not a key), the stored mapping is
left unchanged but the next-identifier counter has already been incremented
and the user object's identifier field already overwritten — the failed save
consumes an identifier that is never stored. -/
theorem C10_save_error_not_atomic (st : SourcePy.RepoState) (u : SourcePy.User)
    (hcap : ¬ (st.users.length ≥ st.max_users ∧ SourcePy.lookupUser st.users u.id = none))
    (hfresh : u.id = 0 ∨ SourcePy.lookupUser st.users u.id = none)
    (hbad : SourcePy.validUser u = false) :
    SourcePy.save st u =
      (.validationError "INVALID_USER_DATA",
       { u with id := st.next_id },
       { st with next_id := st.next_id + 1 }) := by
  rw [SourcePy.save_eq_fresh hcap hfresh, if_neg (by simp [hbad])]

/-- Witness for C10: saving a user with a mutated invalid email into the
empty repository consumes identifier 1 without storing anything. -/
theorem C10_save_error_not_atomic_witness :
    SourcePy.save SourcePy.testRepoEmpty SourcePy.testUserBad =
      (.validationError "INVALID_USER_DATA",
       { SourcePy.testUserBad with id := 1 },
       { SourcePy.testRepoEmpty with next_id := 2 }) :=
  C10_save_error_not_atomic SourcePy.testRepoEmpty SourcePy.testUserBad
    (by decide) (by decide) (by decide)

/-- Claim C7: delete of a present identifier returns true and removes the
entry, a second delete of the same identifier returns false, and delete of an
absent identifier returns false leaving the store unchanged. -/
theorem C7_delete_exactly_once (st : SourcePy.RepoState) (k : Nat) :
    (∀ v, SourcePy.lookupUser st.users k = some v →
        (SourcePy.delete st k).1 = true ∧
        SourcePy.lookupUser ((SourcePy.delete st k).2).users k = none ∧
        SourcePy.delete ((SourcePy.delete st k).2) k = (false, (SourcePy.delete st k).2)) ∧
    (SourcePy.lookupUser st.users k = none →
        SourcePy.delete st k = (false, st)) := by
  constructor
  · intro v hv
    have hs : (SourcePy.lookupUser st.users k).isSome = true := by rw [hv]; rfl
    have hdel : SourcePy.delete st k =
        (true, { st with users := st.users.filter (fun p => p.1 != k) }) := by
      unfold SourcePy.delete
      rw [if_pos hs]
    have hnone : SourcePy.lookupUser ((SourcePy.delete st k).2).users k = none := by
      rw [hdel]
      exact SourcePy.lookupUser_filter_self _ _
    exact ⟨by rw [hdel], hnone, SourcePy.delete_eq_of_none hnone⟩
  · intro hn
    exact SourcePy.delete_eq_of_none hn

/-- Witness for C7 at a concrete repository holding one user. -/
theorem C7_delete_exactly_once_witness :
    (SourcePy.delete SourcePy.testRepoFull 1).1 = true ∧
    SourcePy.lookupUser ((SourcePy.delete SourcePy.testRepoFull 1).2).users 1 = none ∧
    SourcePy.delete ((SourcePy.delete SourcePy.testRepoFull 1).2) 1 =
      (false, (SourcePy.delete SourcePy.testRepoFull 1).2) :=
  (C7_delete_exactly_once SourcePy.testRepoFull 1).1 SourcePy.testUser1 (by decide)

/-- Claim C6 is refuted by the code at this input: `find_all` returns a fresh
list of shared object references (`list(self._users.values())` is a shallow
copy), so mutating the `User` object reachable through the returned list
changes what a subsequent `find_by_id` call observes — the promised
independent snapshot does not hold for element mutation. -/
theorem C6_find_all_aliasing :
    SourcePy.ref_find_all SourcePy.refFixture = [7] ∧
    (SourcePy.observe_by_id SourcePy.refFixture 1).map SourcePy.User.name
      = some "Alice" ∧
    (SourcePy.observe_by_id
        { SourcePy.refFixture with
            heap := SourcePy.refFixture.heap.writeName 7 "Mallory" } 1).map
        SourcePy.User.name
      = some "Mallory" := by
  decide

/-- Claim C5: for every repository population, adult plus minor users equals
total users; a user counts as adult exactly when their age is known and at
least 18 (unknown age counts as minor); and the average age is the mean over
users with known age, equal to 0 when no user has a known age. -/
theorem C5_statistics_invariant (st : SourcePy.RepoState) (now : Rat) :
    (SourcePy.get_statistics st now).adult_users + (SourcePy.get_statistics st now).minor_users
        = (SourcePy.get_statistics st now).total_users ∧
    (SourcePy.get_statistics st now).adult_users
        = (SourcePy.find_all st).countP (fun u => u.is_adult) ∧
    (∀ u : SourcePy.User, u.is_adult = true ↔ ∃ a, u.age = some a ∧ (18 : Int) ≤ a) ∧
    (SourcePy.get_statistics st now).average_age =
      (if (SourcePy.find_all st).countP (fun u => u.age.isSome) = 0 then 0
       else ((((SourcePy.find_all st).filterMap (fun u => u.age)).sum : Int) : Rat) /
            ((SourcePy.find_all st).countP (fun u => u.age.isSome) : Rat)) := by
  have hadult : (SourcePy.get_statistics st now).adult_users
      = (SourcePy.find_all st).countP (fun u => u.is_adult) :=
    SourcePy.statsLoop_adult (SourcePy.find_all st)
  have hminor : (SourcePy.get_statistics st now).minor_users
      = (SourcePy.find_all st).length
        - (SourcePy.find_all st).countP (fun u => u.is_adult) := by
    show (SourcePy.find_all st).length - (SourcePy.statsLoop (SourcePy.find_all st)).2.1 = _
    rw [SourcePy.statsLoop_adult]
  have htotal : (SourcePy.get_statistics st now).total_users
      = (SourcePy.find_all st).length := rfl
  refine ⟨?_, hadult, ?_, ?_⟩
  · rw [hadult, hminor, htotal]
    have hle := List.countP_le_length
      (p := fun u => SourcePy.User.is_adult u) (l := SourcePy.find_all st)
    omega
  · intro u
    unfold SourcePy.User.is_adult
    cases hage : u.age with
    | none => simp
    | some a => simp
  · have hrw : (SourcePy.get_statistics st now).average_age =
        (if (SourcePy.statsLoop (SourcePy.find_all st)).2.2.2 > 0
         then ((SourcePy.statsLoop (SourcePy.find_all st)).2.2.1 : Rat) /
              ((SourcePy.statsLoop (SourcePy.find_all st)).2.2.2 : Rat)
         else 0) := rfl
    rw [hrw, SourcePy.statsLoop_age_count, SourcePy.statsLoop_total_age]
    rcases Nat.eq_zero_or_pos ((SourcePy.find_all st).countP (fun u => u.age.isSome))
      with h0 | hpos
    · rw [h0]
      simp
    · rw [if_pos hpos, if_neg (by omega)]

/-- Claim C8: the service's local fallback reduction computes the same five
shared fields as the repository's statistics for the same users, and
`get_user_statistics` always augments whichever result it obtains with the
service-uptime field. -/
theorem C8_statistics_refinement (st : SourcePy.RepoState) (now service_started : Rat)
    (has_get_statistics : Bool) :
    (SourcePy.get_statistics st now).toBasicStats
        = SourcePy.calculate_basic_statistics (SourcePy.find_all st) ∧
    (SourcePy.get_user_statistics st now service_started
        has_get_statistics).service_uptime_seconds
      = now - service_started := by
  refine ⟨SourcePy.get_statistics_toBasic st now, ?_⟩
  unfold SourcePy.get_user_statistics
  cases has_get_statistics with
  | false => rfl
  | true => rfl

/-- Claim C3: if some stored user's email equals the requested email up to
ASCII case, `create_user_async` fails with a `DUPLICATE_EMAIL` validation
error whose context carries the conflicting stored user's identifier and the
repository is unchanged; in particular the sequential `a@b.com` then
`A@B.COM` scenario fails exactly this way. -/
theorem C3_duplicate_email (st : SourcePy.RepoState) (name email : String)
    (age : Option Int) (now : Rat)
    (h : ∃ ex ∈ SourcePy.find_all st,
        SourcePy.strLower ex.email = SourcePy.strLower email) :
    (∃ ex ∈ SourcePy.find_all st,
        SourcePy.strLower ex.email = SourcePy.strLower email ∧
        SourcePy.create_user_async st name email age now =
          (.validationError "DUPLICATE_EMAIL" ex.id, st)) ∧
    (SourcePy.scenarioStep1.1 = .created SourcePy.scenarioUser1 ∧
     SourcePy.scenarioStep2 =
        (.validationError "DUPLICATE_EMAIL" 1, SourcePy.scenarioStep1.2)) := by
  constructor
  · cases hf : (SourcePy.find_all st).find?
        (fun ex => SourcePy.strLower ex.email == SourcePy.strLower email) with
    | none =>
      exfalso
      rw [List.find?_eq_none] at hf
      obtain ⟨ex, hmem, heq⟩ := h
      exact hf ex hmem (by simp [heq])
    | some ex =>
      refine ⟨ex, List.mem_of_find?_eq_some hf, ?_, ?_⟩
      · have hp := List.find?_some hf
        simpa using hp
      · unfold SourcePy.create_user_async
        rw [hf]
  · exact ⟨by decide, by decide⟩

/-- Witness for C3 at the concrete scenario state left by the first creation. -/
theorem C3_duplicate_email_witness :
    ∃ ex ∈ SourcePy.find_all SourcePy.scenarioStep1.2,
      SourcePy.strLower ex.email = SourcePy.strLower "A@B.COM" ∧
      SourcePy.create_user_async SourcePy.scenarioStep1.2 "Bob" "A@B.COM" (some 25) 0 =
        (.validationError "DUPLICATE_EMAIL" ex.id, SourcePy.scenarioStep1.2) :=
  (C3_duplicate_email SourcePy.scenarioStep1.2 "Bob" "A@B.COM" (some 25) 0 (by decide)).1

/-- Claim C1: save never lets the stored count exceed the configured
capacity: at capacity, a save whose user identifier is not a key fails with a
`CAPACITY_EXCEEDED` repository error leaving the state unchanged, while a
save whose identifier is already a key succeeds and overwrites that entry;
and after any save the stored count is still within capacity. -/
theorem C1_save_capacity (st : SourcePy.RepoState) (u : SourcePy.User)
    (hwf : SourcePy.Wf st) (hv : SourcePy.validUser u = true) :
    (st.users.length = st.max_users →
      ((SourcePy.lookupUser st.users u.id = none →
          SourcePy.save st u = (.repositoryError "CAPACITY_EXCEEDED", u, st)) ∧
       (∀ v, SourcePy.lookupUser st.users u.id = some v →
          (SourcePy.save st u).1 = .ok u.id ∧
          SourcePy.lookupUser ((SourcePy.save st u).2.2).users u.id = some u ∧
          ((SourcePy.save st u).2.2).users.length = st.users.length))) ∧
    ((SourcePy.save st u).2.2).users.length ≤ st.max_users := by
  obtain ⟨hnd, hbound, hone, hlen⟩ := hwf
  constructor
  · intro hfull
    constructor
    · intro hnone
      exact SourcePy.save_eq_capacity ⟨by omega, hnone⟩
    · intro v hsome
      have hid0 : u.id ≠ 0 := by
        have hm := SourcePy.lookupUser_some_mem hsome
        have := (hbound _ hm).1
        omega
      have hnf : ¬ (u.id = 0 ∨ SourcePy.lookupUser st.users u.id = none) := by
        rintro (h0 | hn)
        · exact hid0 h0
        · rw [hn] at hsome
          exact Option.noConfusion hsome
      have hsave := SourcePy.save_eq_present hnf
      rw [if_pos hv] at hsave
      have hany := SourcePy.any_eq_true_of_lookupUser_some hsome
      refine ⟨by rw [hsave], ?_, ?_⟩
      · rw [hsave]
        exact SourcePy.lookupUser_insertUser_self _ _ _
      · calc ((SourcePy.save st u).2.2).users.length
            = (SourcePy.insertUser st.users u.id u).length := by rw [hsave]
          _ = st.users.length := SourcePy.length_insertUser_of_any_eq_true _ hany
  · by_cases hcap : st.users.length ≥ st.max_users ∧ SourcePy.lookupUser st.users u.id = none
    · rw [SourcePy.save_eq_capacity hcap]
      exact hlen
    · by_cases hfresh : u.id = 0 ∨ SourcePy.lookupUser st.users u.id = none
      · have hnone : SourcePy.lookupUser st.users u.id = none := by
          rcases hfresh with h0 | hn
          · exact SourcePy.lookupUser_eq_none_of_id_zero ⟨hnd, hbound, hone, hlen⟩ h0
          · exact hn
        have hlt : st.users.length < st.max_users := by
          by_contra hge
          exact hcap ⟨by omega, hnone⟩
        have hanyf : st.users.any (fun p => p.1 == st.next_id) = false := by
          rw [List.any_eq_false]
          intro p hp
          have := (hbound p hp).2
          simp
          omega
        calc ((SourcePy.save st u).2.2).users.length
            = (SourcePy.insertUser st.users st.next_id { u with id := st.next_id }).length := by
              rw [SourcePy.save_eq_fresh hcap hfresh, if_pos hv]
          _ = st.users.length + 1 := by
              rw [SourcePy.insertUser_of_any_eq_false _ hanyf, List.length_append]
              rfl
          _ ≤ st.max_users := by omega
      · have hsave := SourcePy.save_eq_present hfresh
        rw [if_pos hv] at hsave
        have hsome : SourcePy.lookupUser st.users u.id ≠ none := fun h => hfresh (Or.inr h)
        obtain ⟨v, hv'⟩ : ∃ v, SourcePy.lookupUser st.users u.id = some v := by
          cases hl : SourcePy.lookupUser st.users u.id with
          | none => exact absurd hl hsome
          | some v => exact ⟨v, rfl⟩
        have hany := SourcePy.any_eq_true_of_lookupUser_some hv'
        calc ((SourcePy.save st u).2.2).users.length
            = (SourcePy.insertUser st.users u.id u).length := by rw [hsave]
          _ = st.users.length := SourcePy.length_insertUser_of_any_eq_true _ hany
          _ ≤ st.max_users := hlen

/-- Witness for C1: at capacity 1, saving a new user fails with the capacity
error, while saving the already-stored user succeeds within capacity. -/
theorem C1_save_capacity_witness :
    SourcePy.save SourcePy.testRepoFull SourcePy.testUserNew
      = (.repositoryError "CAPACITY_EXCEEDED", SourcePy.testUserNew, SourcePy.testRepoFull) ∧
    (SourcePy.save SourcePy.testRepoFull SourcePy.testUser1).1 = .ok 1 ∧
    ((SourcePy.save SourcePy.testRepoFull SourcePy.testUser1).2.2).users.length ≤ 1 := by
  have h1 := C1_save_capacity SourcePy.testRepoFull SourcePy.testUserNew
    (by decide) (by decide)
  have h2 := C1_save_capacity SourcePy.testRepoFull SourcePy.testUser1
    (by decide) (by decide)
  refine ⟨(h1.1 (by decide)).1 (by decide), ?_, h2.2⟩
  exact ((h2.1 (by decide)).2 SourcePy.testUser1 (by decide)).1

/-- Claim C4: the next-identifier counter never decreases across save and
delete; save assigns a fresh identifier from the counter exactly when the
given user's identifier is 0 or not a key of the store; every freshly
assigned identifier is the counter value and strictly greater than every
stored identifier; and well-formedness (all stored keys strictly below the
counter) is preserved by save and delete, so an identifier removed by delete
is never reassigned by the counter. -/
theorem C4_counter_monotone (st : SourcePy.RepoState) (u : SourcePy.User) (k : Nat)
    (hwf : SourcePy.Wf st) :
    st.next_id ≤ ((SourcePy.save st u).2.2).next_id ∧
    ((SourcePy.delete st k).2).next_id = st.next_id ∧
    (¬ (st.users.length ≥ st.max_users ∧ SourcePy.lookupUser st.users u.id = none) →
      (((u.id = 0 ∨ SourcePy.lookupUser st.users u.id = none) →
          ((SourcePy.save st u).2.1).id = st.next_id ∧
          ((SourcePy.save st u).2.2).next_id = st.next_id + 1 ∧
          ∀ p ∈ st.users, p.1 < st.next_id) ∧
       (¬ (u.id = 0 ∨ SourcePy.lookupUser st.users u.id = none) →
          ((SourcePy.save st u).2.1).id = u.id ∧
          ((SourcePy.save st u).2.2).next_id = st.next_id))) ∧
    SourcePy.Wf ((SourcePy.save st u).2.2) ∧
    SourcePy.Wf ((SourcePy.delete st k).2) := by
  refine ⟨SourcePy.next_id_save_mono st u, ?_, ?_,
    SourcePy.Wf_save st u hwf, SourcePy.Wf_delete st k hwf⟩
  · unfold SourcePy.delete
    by_cases h : (SourcePy.lookupUser st.users k).isSome = true
    · rw [if_pos h]
    · rw [if_neg h]
  · intro hcap
    constructor
    · intro hfresh
      refine ⟨?_, ?_, fun p hp => (hwf.2.1 p hp).2⟩
      · rw [SourcePy.save_eq_fresh hcap hfresh]
        by_cases hval : SourcePy.validUser u = true
        · rw [if_pos hval]
        · rw [if_neg hval]
      · rw [SourcePy.save_eq_fresh hcap hfresh]
        by_cases hval : SourcePy.validUser u = true
        · rw [if_pos hval]
        · rw [if_neg hval]
    · intro hnf
      have hsave := SourcePy.save_eq_present hnf
      constructor
      · rw [hsave]
        by_cases hval : SourcePy.validUser u = true
        · rw [if_pos hval]
        · rw [if_neg hval]
      · rw [hsave]
        by_cases hval : SourcePy.validUser u = true
        · rw [if_pos hval]
        · rw [if_neg hval]

/-- Witness for C4 at a concrete state: saving a fresh user into the empty
repository issues identifier 1, does not decrease the counter, and preserves
well-formedness. -/
theorem C4_counter_monotone_witness :
    SourcePy.testRepoEmpty.next_id ≤
      ((SourcePy.save SourcePy.testRepoEmpty SourcePy.testUserNew).2.2).next_id ∧
    ((SourcePy.save SourcePy.testRepoEmpty SourcePy.testUserNew).2.1).id = 1 ∧
    SourcePy.Wf ((SourcePy.save SourcePy.testRepoEmpty SourcePy.testUserNew).2.2) := by
  have h := C4_counter_monotone SourcePy.testRepoEmpty SourcePy.testUserNew 1 (by decide)
  refine ⟨h.1, ?_, h.2.2.2.1⟩
  exact ((h.2.2.1 (by decide)).1 (by decide)).1
